import Mathlib

/-!
# Custom fused operators of `torch_ipex/csrc/cpu/CustomOPs.cpp`

A shallow embedding of the operators of `AtenIpexJITDev` and of
`_prepare_layer_norm_inputs`.

* Tensors are records of the attributes the operators read (`defined()`,
  `sizes()`, `scalar_type()`, `is_contiguous()`) plus an element buffer that
  only the external kernels interpret.
* The kernels declared in `Conv.h`, `LayerNorm.h`, `Linear.h`, `Matmul.h`,
  `Pooling.h`, `Softmax.h` and the operators of the host framework are
  parameters (`Kernels`, `Host`): the operators of this file only choose
  which of them to invoke and with which arguments.
* An operator evaluates to an `Outcome`: the sequence of external calls it
  made, and either the value it returned or the error it raised.
* The operators that write through a handle and read afterwards
  (`dil_matmul_div`) take their tensors by address in a `Memory`, so that a
  write through one handle is seen through every handle to the same object.
* `int` and `int64_t` values are integers reduced to their width.
-/

namespace torch_ipex
namespace cpu

/-! ## Host framework data -/

/-- The `at::ScalarType` enumeration. -/
inductive ScalarType where
  | Byte | Char | Short | Int | Long | Half | Float | Double
  | ComplexHalf | ComplexFloat | ComplexDouble | Bool
  | QInt8 | QUInt8 | QInt32 | BFloat16 | Undefined
  deriving DecidableEq, Repr

/-- An `at::IntArrayRef`: a sequence of `int64_t`. -/
abbrev IntArrayRef := List Int

/-- A C `float`, kept as its bit pattern: no arithmetic is done on it here. -/
structure c_float where
  bits : Nat
  deriving DecidableEq, Repr

/-- A `c10::Scalar`: a tagged integral, floating point or boolean value. -/
inductive Scalar where
  | of_int64 (i : Int)
  | of_double (bits : Nat)
  | of_bool (b : Bool)
  deriving DecidableEq, Repr

/-- An `at::Tensor` handle, as seen through the accessors the operators use. -/
structure Tensor where
  defined : Bool
  sizes : IntArrayRef
  scalar_type : ScalarType
  is_contiguous : Bool
  storage : List Int
  deriving DecidableEq, Repr

/-- The number of dimensions, `Tensor::dim()` (an `int64_t`). -/
def Tensor.dim (t : Tensor) : Int := t.sizes.length

/-- A default constructed `at::Tensor()`, which is not defined. -/
def Tensor.undefined : Tensor :=
  { defined := false, sizes := [0], scalar_type := ScalarType.Undefined,
    is_contiguous := true, storage := [] }

/-- The address of a tensor object. An `at::Tensor` is a handle to such an
object: two handles with the same address are the same tensor, and what is
written through one is read through the other. -/
abbrev Handle := Nat

/-- The tensor objects in memory, by address. -/
structure Memory where
  objects : List Tensor
  deriving DecidableEq, Repr

/-- The object a handle points to; a handle to no object is an undefined tensor. -/
def Memory.read (memory : Memory) (h : Handle) : Tensor :=
  memory.objects.getD h Tensor.undefined

/-- The memory after the object at `h` is overwritten with `t`. -/
def Memory.write (memory : Memory) (h : Handle) (t : Tensor) : Memory :=
  ⟨memory.objects.set h t⟩

/-- A tensor argument: a handle to an object in memory, or a temporary, which
no handle in memory refers to (as the result of `wrapped_scalar_tensor` is). -/
inductive TensorRef where
  | object (h : Handle)
  | temporary (t : Tensor)
  deriving DecidableEq, Repr

/-- The tensor a reference denotes in the given memory. -/
def TensorRef.read (memory : Memory) : TensorRef → Tensor
  | TensorRef.object h => memory.read h
  | TensorRef.temporary t => t

/-! ## Machine integers -/

/-- The value of `x` in a signed two's complement integer of `w` bits. -/
def wrap_signed (w : Nat) (x : Int) : Int :=
  (x + 2 ^ (w - 1)) % 2 ^ w - 2 ^ (w - 1)

/-- Conversion to `int`. -/
def to_int (x : Int) : Int := wrap_signed 32 x

/-- Conversion to `int64_t`. -/
def to_int64 (x : Int) : Int := wrap_signed 64 x

/-- Computes `std::accumulate(first, last, init, std::multiplies<int64_t>())`
over the elements `xs` of the range. -/
def accumulate_multiplies (xs : List Int) (init : Int) : Int :=
  xs.foldl (fun acc x => to_int64 (acc * x)) init

/-- The `ArrayRef::slice(N)`: the elements from index `N` to the end. -/
def slice (xs : IntArrayRef) (N : Int) : IntArrayRef := xs.drop N.toNat

/-- The `ArrayRef::equals`: same length and same elements. -/
def equals (xs ys : IntArrayRef) : Bool := decide (xs = ys)

/-- Text of an `IntArrayRef` as `operator<<` prints it. -/
def str_IntArrayRef (xs : IntArrayRef) : String :=
  "[" ++ ", ".intercalate (xs.map toString) ++ "]"

/-- The `TORCH_CHECK(cond, msg)`: raises `msg` unless `cond` holds. -/
def TORCH_CHECK (cond : Bool) (msg : String) : Except String Unit :=
  if cond then Except.ok () else Except.error msg

/-- The `AT_ERROR(msg)`: raises `msg`. -/
def AT_ERROR {α : Type} (msg : String) : Except String α := Except.error msg

/-- The fusion attribute `ideep::attr_t`, as the constructor call that made it. -/
inductive attr_t where
  | default_ctor
  | fuse_swish
  | fuse_sigmoid
  | fuse_clamp (lower_bound upper_bound : c_float)
  | fuse_relu
  | fuse_elu (scale alpha input_scale : c_float)
  | fuse_sum (scale : c_float)
  | residual (scale : c_float)
  deriving DecidableEq, Repr

/-- The members of `ideep::algorithm` used for pooling. -/
inductive algorithm where
  | pooling_max
  | pooling_avg
  deriving DecidableEq, Repr

/-- The operators of the host framework that the custom operators use. -/
structure Host where
  /-- The `at::matmul(a, b)`; raises on incompatible shapes. -/
  matmul : Tensor → Tensor → Except String Tensor
  /-- The `at::matmul_out(out, a, b)`, on handles: the memory it leaves. -/
  matmul_out : Memory → Handle → Handle → Handle → Except String Memory
  /-- The `self.div(other)`, which leaves `self` unchanged. -/
  div : Tensor → Tensor → Except String Tensor
  /-- The `at::native_layer_norm(input, normalized_shape, weight, bias, eps)`. -/
  native_layer_norm :
    Tensor → IntArrayRef → Tensor → Tensor → c_float → Except String (Tensor × Tensor × Tensor)
  /-- The `t.contiguous()`. -/
  contiguous : Tensor → Tensor
  /-- The `t.toType(scalar_type)`. -/
  toType : Tensor → ScalarType → Tensor
  /-- The `at::native::wrapped_scalar_tensor(scalar)`. -/
  wrapped_scalar_tensor : Scalar → Tensor
  /-- The `scalar.to<float>()`, which raises when the value overflows a `float`. -/
  to_float : Scalar → Except String c_float
  /-- The `float scale = 1.0 / x`. -/
  reciprocal : c_float → c_float

/-! ## Layer normalization: input preparation -/

/-- The function `_prepare_layer_norm_inputs` (CustomOPs.cpp, lines 371-421).
The ranges `[cbegin, cbegin + axis)` and `[cbegin + axis, cend)` are the first
`axis` sizes and the remaining ones. -/
def _prepare_layer_norm_inputs (H : Host) (input : Tensor) (normalized_shape : IntArrayRef)
    (weight bias : Tensor) : Except String (Tensor × Tensor × Tensor × Int × Int) := do
  let normalized_ndim : Int := to_int normalized_shape.length
  TORCH_CHECK (decide (normalized_ndim ≥ 1))
    ("Expected normalized_shape to be at least 1-dimensional, i.e., " ++
     "containing at least one element, but got normalized_shape = " ++
     str_IntArrayRef normalized_shape)
  TORCH_CHECK (!weight.defined || equals weight.sizes normalized_shape)
    ("Expected weight to be of same shape as normalized_shape, but got " ++
     "weight of shape " ++ str_IntArrayRef weight.sizes ++
     " and normalized_shape = " ++ str_IntArrayRef normalized_shape)
  TORCH_CHECK (!bias.defined || equals bias.sizes normalized_shape)
    ("Expected bias to be of same shape as normalized_shape, but got " ++
     "bias of shape " ++ str_IntArrayRef bias.sizes ++
     " and normalized_shape = " ++ str_IntArrayRef normalized_shape)
  let input_shape := input.sizes
  let input_ndim : Int := input.dim
  if decide (input_ndim < normalized_ndim) ||
      !equals (slice input_shape (input_ndim - normalized_ndim)) normalized_shape then
    AT_ERROR ("Given normalized_shape=" ++ str_IntArrayRef normalized_shape ++
      ", expected input with shape [*" ++
      String.join (normalized_shape.map (fun size => ", " ++ toString size)) ++
      "], but got input of size" ++ str_IntArrayRef input_shape)
  let axis : Int := to_int (input_ndim - normalized_ndim)
  let M : Int := accumulate_multiplies (input_shape.take axis.toNat) 1
  let N : Int := accumulate_multiplies (input_shape.drop axis.toNat) 1
  let X := if input.is_contiguous then input else H.contiguous input
  let gamma := if weight.is_contiguous then weight else H.contiguous weight
  let beta := if bias.is_contiguous then bias else H.contiguous bias
  return (X, gamma, beta, M, N)

/-- The four checks of `_prepare_layer_norm_inputs`, in the order they are made. -/
def prepare_checks (input : Tensor) (normalized_shape : IntArrayRef) (weight bias : Tensor) :
    Bool :=
  decide (to_int normalized_shape.length ≥ 1) &&
  (!weight.defined || equals weight.sizes normalized_shape) &&
  (!bias.defined || equals bias.sizes normalized_shape) &&
  !(decide (input.dim < to_int normalized_shape.length) ||
    !equals (slice input.sizes (input.dim - to_int normalized_shape.length)) normalized_shape)

/-! ## Kernels and call traces -/

/-- The kernel entry points of this library that the operators dispatch to
(declared in `Conv.h`, `Pooling.h`, `Linear.h`, `Matmul.h`, `Softmax.h` and
`LayerNorm.h`). Each either returns a value or raises. For
`convolution_inplace_impl`, which returns nothing, the value is what the call
leaves in `accumu`. The kernel `bmm_impl(tensor1, tensor2, out, attr, scale)`
takes its tensors by address and gives the tensor it returns and the memory it
leaves. -/
structure Kernels where
  convolution_impl : Tensor → Tensor → Tensor → IntArrayRef → IntArrayRef → IntArrayRef →
    Int → attr_t → Except String Tensor
  convolution_inplace_impl : Tensor → Tensor → Tensor → Tensor → IntArrayRef → IntArrayRef →
    IntArrayRef → Int → attr_t → Except String Tensor
  pooling_impl : Tensor → IntArrayRef → IntArrayRef → IntArrayRef → IntArrayRef → Bool →
    algorithm → Except String Tensor
  linear_impl : Tensor → Tensor → Tensor → attr_t → Except String Tensor
  linear_inplace_impl : Tensor → Tensor → Tensor → Tensor → attr_t → Except String Tensor
  bmm_impl : Memory → Handle → Handle → Handle → attr_t → c_float →
    Except String (Tensor × Memory)
  softmax_impl : Tensor → Int → Except String Tensor
  dil_native_layer_norm_impl : Tensor → Tensor → Tensor → Int → Int → c_float →
    Except String (Tensor × Tensor × Tensor)

/-- One invocation of a kernel or of a shape-checked host operator, with the
arguments in the order of the call. -/
inductive Call where
  | convolution_impl (input weight bias : Tensor) (stride padding dilation : IntArrayRef)
      (groups : Int) (attr : attr_t)
  | convolution_inplace_impl (input weight bias accumu : Tensor)
      (stride padding dilation : IntArrayRef) (groups : Int) (attr : attr_t)
  | pooling_impl (input : Tensor) (kernel_size stride padding dilation : IntArrayRef)
      (ceil_mode : Bool) (algo : algorithm)
  | linear_impl (self weight bias : Tensor) (attr : attr_t)
  | linear_inplace_impl (self weight bias accumu : Tensor) (attr : attr_t)
  | bmm_impl (tensor1 tensor2 out : Tensor) (attr : attr_t) (dst_coeff : c_float)
  | softmax_impl (input : Tensor) (dim : Int)
  | dil_native_layer_norm_impl (X gamma beta : Tensor) (M N : Int) (eps : c_float)
  | matmul (tensor1 tensor2 : Tensor)
  | matmul_out (out tensor1 tensor2 : Tensor)
  | div (self other : Tensor)
  | native_layer_norm (input : Tensor) (normalized_shape : IntArrayRef) (weight bias : Tensor)
      (eps : c_float)
  deriving DecidableEq, Repr

/-- Whether the call is to one of the kernels of this library (and not to
an operator of the host framework). -/
def Call.is_kernel : Call → Bool
  | Call.matmul _ _ => false
  | Call.matmul_out _ _ _ => false
  | Call.div _ _ => false
  | Call.native_layer_norm _ _ _ _ _ => false
  | _ => true

/-- What running an operator produced: the external calls it made, in order,
and the value it returned or the error it raised. -/
structure Outcome (α : Type) where
  trace : List Call
  result : Except String α

/-- Returning a value makes no call. -/
def Outcome.pure {α : Type} (a : α) : Outcome α := ⟨[], Except.ok a⟩

/-- Sequencing: an error ends the run, keeping the calls made so far. -/
def Outcome.bind {α β : Type} (x : Outcome α) (f : α → Outcome β) : Outcome β :=
  match x.result with
  | Except.error e => ⟨x.trace, Except.error e⟩
  | Except.ok a => ⟨x.trace ++ (f a).trace, (f a).result⟩

instance : Monad Outcome where
  pure := Outcome.pure
  bind := Outcome.bind

/-- A computation that makes no external call. -/
def Outcome.lift {α : Type} (r : Except String α) : Outcome α := ⟨[], r⟩

/-- An external call: it is recorded, and its result is the result of the run. -/
def Outcome.invoke {α : Type} (c : Call) (r : Except String α) : Outcome α := ⟨[c], r⟩

section calls
variable (K : Kernels) (H : Host)

def convolution_impl (input weight bias : Tensor) (stride padding dilation : IntArrayRef)
    (groups : Int) (attr : attr_t) : Outcome Tensor :=
  Outcome.invoke (Call.convolution_impl input weight bias stride padding dilation groups attr)
    (K.convolution_impl input weight bias stride padding dilation groups attr)

def convolution_inplace_impl (input weight bias accumu : Tensor)
    (stride padding dilation : IntArrayRef) (groups : Int) (attr : attr_t) : Outcome Tensor :=
  Outcome.invoke
    (Call.convolution_inplace_impl input weight bias accumu stride padding dilation groups attr)
    (K.convolution_inplace_impl input weight bias accumu stride padding dilation groups attr)

def pooling_impl (input : Tensor) (kernel_size stride padding dilation : IntArrayRef)
    (ceil_mode : Bool) (algo : algorithm) : Outcome Tensor :=
  Outcome.invoke (Call.pooling_impl input kernel_size stride padding dilation ceil_mode algo)
    (K.pooling_impl input kernel_size stride padding dilation ceil_mode algo)

def linear_impl (self weight bias : Tensor) (attr : attr_t) : Outcome Tensor :=
  Outcome.invoke (Call.linear_impl self weight bias attr) (K.linear_impl self weight bias attr)

def linear_inplace_impl (self weight bias accumu : Tensor) (attr : attr_t) : Outcome Tensor :=
  Outcome.invoke (Call.linear_inplace_impl self weight bias accumu attr)
    (K.linear_inplace_impl self weight bias accumu attr)

/-- The call `bmm_impl(tensor1, tensor2, out, attr, dst_coeff)`, recorded with
the tensors the handles point to when it is made. -/
def bmm_impl (memory : Memory) (tensor1 tensor2 out : Handle) (attr : attr_t)
    (dst_coeff : c_float) : Outcome (Tensor × Memory) :=
  Outcome.invoke
    (Call.bmm_impl (memory.read tensor1) (memory.read tensor2) (memory.read out) attr dst_coeff)
    (K.bmm_impl memory tensor1 tensor2 out attr dst_coeff)

def softmax_impl (input : Tensor) (dim : Int) : Outcome Tensor :=
  Outcome.invoke (Call.softmax_impl input dim) (K.softmax_impl input dim)

def dil_native_layer_norm_impl (X gamma beta : Tensor) (M N : Int) (eps : c_float) :
    Outcome (Tensor × Tensor × Tensor) :=
  Outcome.invoke (Call.dil_native_layer_norm_impl X gamma beta M N eps)
    (K.dil_native_layer_norm_impl X gamma beta M N eps)

def matmul (tensor1 tensor2 : Tensor) : Outcome Tensor :=
  Outcome.invoke (Call.matmul tensor1 tensor2) (H.matmul tensor1 tensor2)

/-- The call `at::matmul_out(out, tensor1, tensor2)`, recorded with the tensors
the handles point to when it is made; the value is the memory it leaves. -/
def matmul_out (memory : Memory) (out tensor1 tensor2 : Handle) : Outcome Memory :=
  Outcome.invoke
    (Call.matmul_out (memory.read out) (memory.read tensor1) (memory.read tensor2))
    (H.matmul_out memory out tensor1 tensor2)

def div (self other : Tensor) : Outcome Tensor :=
  Outcome.invoke (Call.div self other) (H.div self other)

def native_layer_norm (input : Tensor) (normalized_shape : IntArrayRef) (weight bias : Tensor)
    (eps : c_float) : Outcome (Tensor × Tensor × Tensor) :=
  Outcome.invoke (Call.native_layer_norm input normalized_shape weight bias eps)
    (H.native_layer_norm input normalized_shape weight bias eps)

end calls

/-! ## The operators of `AtenIpexJITDev` -/

/-- The `at::borrow_from_optional_tensor`: the tensor held, or an undefined one. -/
def borrow_from_optional_tensor (t : Option Tensor) : Tensor :=
  match t with
  | some x => x
  | none => Tensor.undefined

section operators
variable (K : Kernels) (H : Host)

def dil_convolution_base (input weight bias : Tensor) (stride padding dilation : IntArrayRef)
    (groups : Int) : Outcome Tensor :=
  convolution_impl K input weight bias stride padding dilation groups attr_t.default_ctor

def dil_convolution_swish (input weight bias : Tensor) (stride padding dilation : IntArrayRef)
    (groups : Int) : Outcome Tensor :=
  convolution_impl K input weight bias stride padding dilation groups attr_t.fuse_swish

def dil_convolution_sigmoid (input weight bias : Tensor)
    (stride padding dilation : IntArrayRef) (groups : Int) : Outcome Tensor :=
  convolution_impl K input weight bias stride padding dilation groups attr_t.fuse_sigmoid

/-- The tensor overload of `dil_matmul_div` (lines 93-109). The tensors
`tensor1`, `tensor2` and `out` are given by address. When `out` is defined,
`at::matmul_out` writes through it, and `out.div(div_input)` then reads both
`out` and `div_input` in the memory so left: a `div_input` that is the same
object as `out` is read after the write. The division makes a new tensor and
writes nothing. The value is the returned tensor and the memory on return. -/
def dil_matmul_div (memory : Memory) (tensor1 tensor2 out : Handle) (div_input : TensorRef) :
    Outcome (Tensor × Memory) :=
  if (memory.read out).defined then do
    let memory ← matmul_out H memory out tensor1 tensor2
    let r ← div H (memory.read out) (div_input.read memory)
    return (r, memory)
  else do
    let output ← matmul H (memory.read tensor1) (memory.read tensor2)
    let r ← div H output (div_input.read memory)
    return (r, memory)

/-- The scalar overload of `dil_matmul_div` (lines 124-140), on the same
memory; the value is the returned tensor and the memory on return. -/
def dil_matmul_div_scalar (memory : Memory) (tensor1 tensor2 out : Handle)
    (div_input : Scalar) : Outcome (Tensor × Memory) :=
  let dim_tensor1 := (memory.read tensor1).dim
  let dim_tensor2 := (memory.read tensor2).dim
  if dim_tensor1 = dim_tensor2 ∧ dim_tensor1 ≥ 3 then do
    let x ← Outcome.lift (H.to_float div_input)
    let scale := H.reciprocal x
    bmm_impl K memory tensor1 tensor2 out attr_t.default_ctor scale
  else
    dil_matmul_div H memory tensor1 tensor2 out
      (TensorRef.temporary (H.wrapped_scalar_tensor div_input))

def dil_convolution_clamp (input weight bias : Tensor) (stride padding dilation : IntArrayRef)
    (groups : Int) (lower_bound upper_bound : c_float) : Outcome Tensor :=
  convolution_impl K input weight bias stride padding dilation groups
    (attr_t.fuse_clamp lower_bound upper_bound)

def dil_convolution_relu (input weight bias : Tensor) (stride padding dilation : IntArrayRef)
    (groups : Int) : Outcome Tensor :=
  convolution_impl K input weight bias stride padding dilation groups attr_t.fuse_relu

def dil_convolution_elu (input weight bias : Tensor) (stride padding dilation : IntArrayRef)
    (groups : Int) (alpha : c_float) (scale input_scale : Scalar) : Outcome Tensor := do
  let scale_value ← Outcome.lift (H.to_float scale)
  let input_scale_value ← Outcome.lift (H.to_float input_scale)
  convolution_impl K input weight bias stride padding dilation groups
    (attr_t.fuse_elu scale_value alpha input_scale_value)

/-- The operator `dil_convolution_sum` (lines 215-240). It returns the reference
`accumu`: the value is what `accumu` holds after the in-place kernel. -/
def dil_convolution_sum (input weight bias : Tensor) (stride padding dilation : IntArrayRef)
    (groups : Int) (accumu : Tensor) (alpha : Scalar) : Outcome Tensor := do
  let scale ← Outcome.lift (H.to_float alpha)
  let accumu ← convolution_inplace_impl K input weight bias accumu stride padding dilation
    groups (attr_t.fuse_sum scale)
  return accumu

/-- The operator `dil_convolution_sum_relu` (lines 242-267), returning `accumu`
like `dil_convolution_sum`. -/
def dil_convolution_sum_relu (input weight bias : Tensor)
    (stride padding dilation : IntArrayRef) (groups : Int) (accumu : Tensor) (alpha : Scalar) :
    Outcome Tensor := do
  let scale ← Outcome.lift (H.to_float alpha)
  let accumu ← convolution_inplace_impl K input weight bias accumu stride padding dilation
    groups (attr_t.residual scale)
  return accumu

def dil_max_pool2d (input : Tensor) (kernel_size stride padding dilation : IntArrayRef)
    (ceil_mode : Bool) : Outcome Tensor := do
  Outcome.lift (TORCH_CHECK (dilation.all (fun i => decide (1 = i)))
    "dil_max_pool2d does not support dilation case")
  pooling_impl K input kernel_size stride padding dilation ceil_mode algorithm.pooling_max

def dil_linear (self weight bias : Tensor) : Outcome Tensor :=
  linear_impl K self weight bias attr_t.default_ctor

def dil_linear_fuse_eltwise (self weight bias : Tensor) (attr : attr_t) : Outcome Tensor :=
  linear_impl K self weight bias attr

def dil_linear_add (self weight bias accumu : Tensor) (alpha : Scalar) : Outcome Tensor := do
  let scale ← Outcome.lift (H.to_float alpha)
  linear_inplace_impl K self weight bias accumu (attr_t.fuse_sum scale)

def dil_layernorm (input : Tensor) (normalized_shape : IntArrayRef)
    (weight_opt bias_opt : Option Tensor) (eps : c_float) (_cudnn_enable : Bool) :
    Outcome Tensor :=
  match weight_opt, bias_opt with
  | some weight_value, some bias_value => do
    let inputs ← Outcome.lift
      (_prepare_layer_norm_inputs H input normalized_shape weight_value bias_value)
    let X := inputs.1
    let gamma := inputs.2.1
    let beta := inputs.2.2.1
    let M := inputs.2.2.2.1
    let N := inputs.2.2.2.2
    let r ← dil_native_layer_norm_impl K X gamma beta M N eps
    return r.1
  | _, _ => do
    let weight := borrow_from_optional_tensor weight_opt
    let bias := borrow_from_optional_tensor bias_opt
    let r ← native_layer_norm H input normalized_shape weight bias eps
    return r.1

end operators

/-! ## The sum post-op of the in-place linear kernel -/

/-- Modelled from the spec: the linear layer of the linear + residual-add
fusion, `Linear(self, weight, bias) = self * weight^T + bias`, on an `n x k`
input, an `m x k` weight and a bias of `m` elements, over the integers. -/
def modelled_Linear (self weight bias : Tensor) : Tensor :=
  match self.sizes, weight.sizes with
  | [n, k], [m, _] =>
    { defined := true, sizes := [n, m], scalar_type := self.scalar_type, is_contiguous := true,
      storage :=
        (List.range n.toNat).flatMap fun i =>
          (List.range m.toNat).map fun j =>
            ((List.range k.toNat).map fun l =>
              self.storage.getD (i * k.toNat + l) 0
                * weight.storage.getD (j * k.toNat + l) 0).sum
            + bias.storage.getD j 0 }
  | _, _ => self

/-- Modelled from the spec: the kernel `linear_inplace_impl` of `Linear.h`,
which is not among the sources, for the attribute `fuse_sum(scale)`. Following
the pattern of the linear + residual-add fusion,
`accum = accum * alpha + Linear(self, weight, bias)`, it returns `accumu` with
every element multiplied by the scale and added to the element of the linear
output; the linear output is not scaled. Tensors hold integers, and `value`
gives the number a `float` stands for. For another attribute the model
raises. -/
def modelled_linear_inplace_impl (value : c_float → Int) (self weight bias accumu : Tensor)
    (attr : attr_t) : Except String Tensor :=
  match attr with
  | attr_t.fuse_sum scale =>
    Except.ok { accumu with
      storage := List.zipWith (fun a y => a * value scale + y) accumu.storage
        (modelled_Linear self weight bias).storage }
  | _ => Except.error "linear_inplace_impl: only the sum post-op is modelled"

/-! ## A small instance, to evaluate the operators on examples -/

/-- A defined, contiguous `Float` tensor with the given sizes and elements
(in row-major order). -/
def sample_tensor (sizes : IntArrayRef) (storage : List Int) : Tensor :=
  { defined := true, sizes := sizes, scalar_type := ScalarType.Float,
    is_contiguous := true, storage := storage }

/-- The product of an `n x k` and a `k x m` matrix of integers, row-major. -/
def sample_mm (n k m : Nat) (a b : List Int) : List Int :=
  (List.range n).flatMap fun i =>
    (List.range m).map fun j =>
      ((List.range k).map fun l => a.getD (i * k + l) 0 * b.getD (l * m + j) 0).sum

/-- A host over integer-valued tensors: `matmul` multiplies two matrices,
`div` takes the integer quotient, by a one-element divisor or element by
element, `matmul_out` overwrites the object of `out` with the product, and
the conversions to `float` know 1 and 2. -/
def sample_host : Host :=
  { matmul := fun a b =>
      match a.sizes, b.sizes with
      | [n, k], [k2, m] =>
        if k = k2 then
          Except.ok (sample_tensor [n, m] (sample_mm n.toNat k.toNat m.toNat a.storage b.storage))
        else Except.error "mat1 and mat2 shapes cannot be multiplied"
      | _, _ => Except.error "sample host: matmul of two matrices only"
    matmul_out := fun memory out tensor1 tensor2 =>
      match (memory.read tensor1).sizes, (memory.read tensor2).sizes with
      | [n, k], [k2, m] =>
        if k = k2 then
          Except.ok (memory.write out (sample_tensor [n, m]
            (sample_mm n.toNat k.toNat m.toNat (memory.read tensor1).storage
              (memory.read tensor2).storage)))
        else Except.error "mat1 and mat2 shapes cannot be multiplied"
      | _, _ => Except.error "sample host: matmul of two matrices only"
    div := fun self other =>
      match other.storage with
      | [d] => Except.ok { self with storage := self.storage.map (fun x => x / d) }
      | _ =>
        if self.sizes = other.sizes then
          Except.ok { self with
            storage := List.zipWith (fun x d => x / d) self.storage other.storage }
        else Except.error "sample host: div by a tensor of one element or of the same shape"
    native_layer_norm := fun input _ _ _ _ => Except.ok (input, input, input)
    contiguous := fun t => { t with is_contiguous := true }
    toType := fun t st => { t with scalar_type := st }
    wrapped_scalar_tensor := fun s =>
      match s with
      | Scalar.of_int64 i => sample_tensor [] [i]
      | Scalar.of_double bits => sample_tensor [] [bits]
      | Scalar.of_bool b => sample_tensor [] [if b then 1 else 0]
    to_float := fun s =>
      match s with
      | Scalar.of_int64 1 => Except.ok ⟨0x3F800000⟩
      | Scalar.of_int64 2 => Except.ok ⟨0x40000000⟩
      | _ => Except.error "sample host: conversion to float of 1 and 2 only"
    reciprocal := fun x =>
      if x = ⟨0x40000000⟩ then ⟨0x3F000000⟩
      else if x = ⟨0x3F000000⟩ then ⟨0x40000000⟩
      else x }

/-- The integer that a `float` of the sample host stands for (1 or 2). -/
def sample_value (c : c_float) : Int :=
  if c = ⟨0x3F800000⟩ then 1 else if c = ⟨0x40000000⟩ then 2 else 0

/-- Kernels over integer-valued tensors. The in-place linear kernel is the
modelled one; the others return one of their operands, which is enough to see
which call an operator makes and with which arguments. -/
def sample_kernels : Kernels :=
  { convolution_impl := fun input _ _ _ _ _ _ _ => Except.ok input
    convolution_inplace_impl := fun _ _ _ accumu _ _ _ _ _ => Except.ok accumu
    pooling_impl := fun input _ _ _ _ _ _ => Except.ok input
    linear_impl := fun self _ _ _ => Except.ok self
    linear_inplace_impl := modelled_linear_inplace_impl sample_value
    bmm_impl := fun memory tensor1 _ _ _ _ => Except.ok (memory.read tensor1, memory)
    softmax_impl := fun input _ => Except.ok input
    dil_native_layer_norm_impl := fun X gamma beta _ _ _ => Except.ok (X, gamma, beta) }

/-- The `float` 1e-5, the default `eps` of layer normalization. -/
def sample_eps : c_float := ⟨0x3727C5AC⟩

/-- An input of shape `[2, 3, 4]`. -/
def sample_input : Tensor := sample_tensor [2, 3, 4] (List.replicate 24 1)

/-- A weight of shape `[3, 4]`. -/
def sample_weight : Tensor := sample_tensor [3, 4] (List.replicate 12 1)

/-- A bias of shape `[3, 4]`. -/
def sample_bias : Tensor := sample_tensor [3, 4] (List.replicate 12 0)

/-- A weight of shape `[4]`, which is not the normalized shape `[3, 4]`. -/
def sample_weight_mismatched : Tensor := sample_tensor [4] [1, 1, 1, 1]

/-- The matrix `[[1, 2], [3, 4]]`. -/
def sample_mat_a : Tensor := sample_tensor [2, 2] [1, 2, 3, 4]

/-- The matrix `[[2, 0], [0, 4]]`. -/
def sample_mat_b : Tensor := sample_tensor [2, 2] [2, 0, 0, 4]

/-- A defined `2 x 2` output tensor, holding zeros. -/
def sample_out : Tensor := sample_tensor [2, 2] [0, 0, 0, 0]

/-- The product of `sample_mat_a` and `sample_mat_b`: `[[2, 8], [6, 16]]`. -/
def sample_product : Tensor := sample_tensor [2, 2] [2, 8, 6, 16]

/-- The quotient of `sample_product` by 2: `[[1, 4], [3, 8]]`. -/
def sample_quotient : Tensor := sample_tensor [2, 2] [1, 4, 3, 8]

/-- The quotient of `sample_product` by itself: `[[1, 1], [1, 1]]`. -/
def sample_ones : Tensor := sample_tensor [2, 2] [1, 1, 1, 1]

/-- A bias of two elements, `[10, 20]`. -/
def sample_bias_2 : Tensor := sample_tensor [2] [10, 20]

/-- An accumulation operand, `[[1, 1], [1, 1]]`. -/
def sample_accumu : Tensor := sample_tensor [2, 2] [1, 1, 1, 1]

/-- The tensor `[[2, 2], [2, 2]]`. -/
def sample_twos : Tensor := sample_tensor [2, 2] [2, 2, 2, 2]

/-- A memory of three objects, in which the output tensor, at address 2, is
`[[2, 2], [2, 2]]` and is also used as the divisor. -/
def sample_memory_aliased : Memory := ⟨[sample_mat_a, sample_mat_b, sample_twos]⟩

theorem to_int_of_small (n : Nat) (h : n < 2 ^ 31) : to_int (n : Int) = n := by
  unfold to_int wrap_signed
  have h1 : ((n : Int) + 2 ^ (32 - 1)) % 2 ^ 32 = (n : Int) + 2 ^ (32 - 1) := by
    apply Int.emod_eq_of_lt <;> norm_num <;> omega
  rw [h1]; ring

theorem wrap_signed_modEq (w : Nat) (x : Int) :
    wrap_signed w x ≡ x [ZMOD 2 ^ w] := by
  unfold wrap_signed
  have h : (x + 2 ^ (w - 1)) % 2 ^ w ≡ x + 2 ^ (w - 1) [ZMOD 2 ^ w] := Int.mod_modEq _ _
  have h2 := Int.ModEq.sub_right (2 ^ (w - 1)) h
  simpa using h2

theorem wrap_signed_of_range (w : Nat) (hw : 0 < w) (x : Int)
    (hlo : -2 ^ (w - 1) ≤ x) (hhi : x < 2 ^ (w - 1)) : wrap_signed w x = x := by
  unfold wrap_signed
  have hpow : (2 : Int) ^ w = 2 * 2 ^ (w - 1) := by
    obtain ⟨k, rfl⟩ : ∃ k, w = k + 1 := ⟨w - 1, by omega⟩
    simp [pow_succ, mul_comm]
  have h1 : (x + 2 ^ (w - 1)) % 2 ^ w = x + 2 ^ (w - 1) := by
    apply Int.emod_eq_of_lt <;> omega
  rw [h1]; ring

theorem wrap_signed_congr (w : Nat) (a b : Int) (h : a ≡ b [ZMOD 2 ^ w]) :
    wrap_signed w a = wrap_signed w b := by
  unfold wrap_signed
  have h2 : (a + 2 ^ (w - 1)) % 2 ^ w = (b + 2 ^ (w - 1)) % 2 ^ w :=
    Int.ModEq.add_right _ h
  rw [h2]

theorem accumulate_multiplies_eq (xs : List Int) (init : Int) :
    accumulate_multiplies xs init = if xs = [] then init else to_int64 (init * xs.prod) := by
  induction xs generalizing init with
  | nil => simp [accumulate_multiplies]
  | cons x xs ih =>
    have hstep : accumulate_multiplies (x :: xs) init
        = accumulate_multiplies xs (to_int64 (init * x)) := by
      simp [accumulate_multiplies]
    rw [hstep, ih]
    by_cases hxs : xs = []
    · subst hxs; simp
    · simp only [hxs, if_false, List.prod_cons, reduceCtorEq]
      apply wrap_signed_congr
      have h1 : to_int64 (init * x) ≡ init * x [ZMOD 2 ^ 64] := wrap_signed_modEq 64 _
      have h2 := Int.ModEq.mul_right xs.prod h1
      simpa [mul_assoc] using h2

theorem accumulate_multiplies_one (xs : List Int) :
    accumulate_multiplies xs 1 = to_int64 xs.prod := by
  rw [accumulate_multiplies_eq]
  by_cases hxs : xs = []
  · subst hxs
    simp only [if_true, List.prod_nil]
    exact (wrap_signed_of_range 64 (by norm_num) 1 (by norm_num) (by norm_num)).symm
  · simp [hxs]

/-! ## Facts about `_prepare_layer_norm_inputs` -/

theorem prepare_ok_of_checks (H : Host) (input : Tensor) (normalized_shape : IntArrayRef)
    (weight bias : Tensor) (h : prepare_checks input normalized_shape weight bias = true) :
    _prepare_layer_norm_inputs H input normalized_shape weight bias =
      Except.ok
        (if input.is_contiguous then input else H.contiguous input,
         if weight.is_contiguous then weight else H.contiguous weight,
         if bias.is_contiguous then bias else H.contiguous bias,
         accumulate_multiplies (input.sizes.take
           (to_int (input.dim - to_int normalized_shape.length)).toNat) 1,
         accumulate_multiplies (input.sizes.drop
           (to_int (input.dim - to_int normalized_shape.length)).toNat) 1) := by
  simp only [prepare_checks, Bool.and_eq_true, Bool.not_eq_true'] at h
  obtain ⟨⟨⟨h1, h2⟩, h3⟩, h4⟩ := h
  unfold _prepare_layer_norm_inputs
  simp only [h1, h2, h3, h4, TORCH_CHECK, if_true, Bool.false_eq_true, if_false]
  rfl

theorem prepare_error_of_checks (H : Host) (input : Tensor) (normalized_shape : IntArrayRef)
    (weight bias : Tensor) (h : prepare_checks input normalized_shape weight bias = false) :
    ∃ msg, _prepare_layer_norm_inputs H input normalized_shape weight bias =
      Except.error msg := by
  unfold _prepare_layer_norm_inputs
  by_cases h1 : decide (to_int normalized_shape.length ≥ 1) = true
  · by_cases h2 : (!weight.defined || equals weight.sizes normalized_shape) = true
    · by_cases h3 : (!bias.defined || equals bias.sizes normalized_shape) = true
      · by_cases h4 : (decide (input.dim < to_int normalized_shape.length) ||
          !equals (slice input.sizes (input.dim - to_int normalized_shape.length))
            normalized_shape) = true
        · simp only [h1, h2, h3, h4, TORCH_CHECK, AT_ERROR, if_true]
          exact ⟨_, rfl⟩
        · simp only [Bool.not_eq_true] at h4
          simp [prepare_checks, h1, h2, h3, h4] at h
      · simp only [Bool.not_eq_true] at h3
        simp only [h1, h2, h3, TORCH_CHECK, if_true, Bool.false_eq_true, if_false]
        exact ⟨_, rfl⟩
    · simp only [Bool.not_eq_true] at h2
      simp only [h1, h2, TORCH_CHECK, if_true, Bool.false_eq_true, if_false]
      exact ⟨_, rfl⟩
  · simp only [Bool.not_eq_true] at h1
    simp only [h1, TORCH_CHECK, Bool.false_eq_true, if_false]
    exact ⟨_, rfl⟩

theorem prepare_checks_sound (input : Tensor) (normalized_shape : IntArrayRef)
    (weight bias : Tensor) (h : prepare_checks input normalized_shape weight bias = true) :
    to_int normalized_shape.length = normalized_shape.length ∧
    1 ≤ normalized_shape.length ∧
    (weight.defined = false ∨ weight.sizes = normalized_shape) ∧
    (bias.defined = false ∨ bias.sizes = normalized_shape) ∧
    normalized_shape.length ≤ input.sizes.length ∧
    input.sizes.drop (input.sizes.length - normalized_shape.length) = normalized_shape := by
  simp only [prepare_checks, Bool.and_eq_true, Bool.not_eq_true', Bool.or_eq_false_iff,
    Bool.or_eq_true, Bool.not_eq_false', decide_eq_true_eq, decide_eq_false_iff_not, equals,
    slice, Tensor.dim, Bool.not_eq_true'] at h
  obtain ⟨⟨⟨h1, h2⟩, h3⟩, h4, h5⟩ := h
  have hlen := congrArg List.length h5
  rw [List.length_drop] at hlen
  have hk : to_int (normalized_shape.length : Int) = normalized_shape.length := by omega
  rw [hk] at h1 h4 h5
  refine ⟨hk, by omega, h2, h3, by omega, ?_⟩
  have : ((input.sizes.length : Int) - normalized_shape.length).toNat
      = input.sizes.length - normalized_shape.length := by omega
  rw [← this]; exact h5

theorem prepare_checks_complete (input : Tensor) (normalized_shape : IntArrayRef)
    (weight bias : Tensor) (hrank : normalized_shape.length < 2 ^ 31)
    (h1 : 1 ≤ normalized_shape.length)
    (h2 : weight.defined = false ∨ weight.sizes = normalized_shape)
    (h3 : bias.defined = false ∨ bias.sizes = normalized_shape)
    (h4 : normalized_shape.length ≤ input.sizes.length)
    (h5 : input.sizes.drop (input.sizes.length - normalized_shape.length) = normalized_shape) :
    prepare_checks input normalized_shape weight bias = true := by
  have hk := to_int_of_small normalized_shape.length hrank
  have : ((input.sizes.length : Int) - normalized_shape.length).toNat
      = input.sizes.length - normalized_shape.length := by omega
  simp only [prepare_checks, Bool.and_eq_true, Bool.not_eq_true', Bool.or_eq_false_iff,
    Bool.or_eq_true, Bool.not_eq_false', decide_eq_true_eq, decide_eq_false_iff_not, equals,
    slice, Tensor.dim, hk, this]
  refine ⟨⟨⟨by omega, h2⟩, h3⟩, by omega, h5⟩

theorem prepare_ok_iff_checks (H : Host) (input : Tensor) (normalized_shape : IntArrayRef)
    (weight bias : Tensor) :
    (∃ t, _prepare_layer_norm_inputs H input normalized_shape weight bias = Except.ok t) ↔
      prepare_checks input normalized_shape weight bias = true := by
  constructor
  · rintro ⟨t, ht⟩
    by_contra hc
    simp only [Bool.not_eq_true] at hc
    obtain ⟨msg, hmsg⟩ := prepare_error_of_checks H input normalized_shape weight bias hc
    rw [hmsg] at ht
    cases ht
  · intro h
    exact ⟨_, prepare_ok_of_checks H input normalized_shape weight bias h⟩

/-! ## Facts about outcomes -/

@[simp]
theorem Outcome.lift_ok_bind {α β : Type} (a : α) (f : α → Outcome β) :
    (Outcome.lift (Except.ok a) >>= f) = f a := by
  show Outcome.bind _ _ = _
  simp [Outcome.bind, Outcome.lift]

@[simp]
theorem Outcome.lift_error_bind {α β : Type} (e : String) (f : α → Outcome β) :
    (Outcome.lift (Except.error e : Except String α) >>= f) = ⟨[], Except.error e⟩ := by
  show Outcome.bind _ _ = _
  simp [Outcome.bind, Outcome.lift]

@[simp]
theorem Outcome.invoke_bind_return {α : Type} (c : Call) (r : Except String α) :
    (Outcome.invoke c r >>= fun x => (Pure.pure x : Outcome α)) = ⟨[c], r⟩ := by
  show Outcome.bind _ _ = _
  cases r <;> simp [Outcome.bind, Outcome.invoke, Pure.pure, Outcome.pure]

@[simp]
theorem Outcome.invoke_bind_pure {α β : Type} (c : Call) (r : Except String α)
    (g : α → β) :
    (Outcome.invoke c r >>= fun x => (Pure.pure (g x) : Outcome β)) = ⟨[c], Except.map g r⟩ := by
  show Outcome.bind _ _ = _
  cases r <;> simp [Outcome.bind, Outcome.invoke, Except.map, Pure.pure, Outcome.pure]

/-! ## Layer normalization -/

/-- Claim C1. When `weight` is defined and its shape differs from
`normalized_shape`, `_prepare_layer_norm_inputs` raises an error instead of
returning a tuple, whatever the other arguments are; and `dil_layernorm`
called with that weight and any bias present raises the same error, before
any kernel or host operator is called. -/
theorem prepare_layer_norm_inputs_weight_mismatch_raises (K : Kernels) (H : Host)
    (input : Tensor) (normalized_shape : IntArrayRef) (weight bias : Tensor) (eps : c_float)
    (cudnn_enable : Bool) (hdef : weight.defined = true)
    (hshape : weight.sizes ≠ normalized_shape) :
    ∃ msg, _prepare_layer_norm_inputs H input normalized_shape weight bias = Except.error msg ∧
      dil_layernorm K H input normalized_shape (some weight) (some bias) eps cudnn_enable
        = ⟨[], Except.error msg⟩ := by
  have hc : prepare_checks input normalized_shape weight bias = false := by
    simp [prepare_checks, hdef, equals, hshape]
  obtain ⟨msg, hmsg⟩ := prepare_error_of_checks H input normalized_shape weight bias hc
  refine ⟨msg, hmsg, ?_⟩
  simp only [dil_layernorm, hmsg, Outcome.lift_error_bind]

/-- Claim C9. If `_prepare_layer_norm_inputs` returns a tuple then
`normalized_shape` has at least one element, `weight` is undefined or has the
shape `normalized_shape`, so has `bias`, the input has at least as many
dimensions as `normalized_shape`, and its last sizes are `normalized_shape`;
so a mismatch of the weight, of the bias or of the input shape raises. For a
`normalized_shape` whose length fits the `int` it is stored in, the converse
holds too: the function returns a tuple exactly when these conditions hold. -/
theorem prepare_layer_norm_inputs_returns_iff (H : Host) (input : Tensor)
    (normalized_shape : IntArrayRef) (weight bias : Tensor) :
    ((∃ t, _prepare_layer_norm_inputs H input normalized_shape weight bias = Except.ok t) →
      (1 ≤ normalized_shape.length ∧
       (weight.defined = false ∨ weight.sizes = normalized_shape) ∧
       (bias.defined = false ∨ bias.sizes = normalized_shape) ∧
       normalized_shape.length ≤ input.sizes.length ∧
       input.sizes.drop (input.sizes.length - normalized_shape.length) = normalized_shape)) ∧
    (normalized_shape.length < 2 ^ 31 →
      ((∃ t, _prepare_layer_norm_inputs H input normalized_shape weight bias = Except.ok t) ↔
        (1 ≤ normalized_shape.length ∧
         (weight.defined = false ∨ weight.sizes = normalized_shape) ∧
         (bias.defined = false ∨ bias.sizes = normalized_shape) ∧
         normalized_shape.length ≤ input.sizes.length ∧
         input.sizes.drop (input.sizes.length - normalized_shape.length)
           = normalized_shape))) := by
  have hsound : (∃ t, _prepare_layer_norm_inputs H input normalized_shape weight bias
      = Except.ok t) →
      (1 ≤ normalized_shape.length ∧
       (weight.defined = false ∨ weight.sizes = normalized_shape) ∧
       (bias.defined = false ∨ bias.sizes = normalized_shape) ∧
       normalized_shape.length ≤ input.sizes.length ∧
       input.sizes.drop (input.sizes.length - normalized_shape.length)
         = normalized_shape) := by
    intro hok
    have hc := (prepare_ok_iff_checks H input normalized_shape weight bias).1 hok
    exact (prepare_checks_sound input normalized_shape weight bias hc).2
  refine ⟨hsound, fun hrank => ⟨hsound, ?_⟩⟩
  rintro ⟨h1, h2, h3, h4, h5⟩
  exact (prepare_ok_iff_checks H input normalized_shape weight bias).2
    (prepare_checks_complete input normalized_shape weight bias hrank h1 h2 h3 h4 h5)

/-- Claim C10. When `_prepare_layer_norm_inputs` succeeds on an input of shape
`s` and a normalized shape `ns`, and nothing overflows (the number of leading
dimensions fits an `int`, the product of the leading sizes and the product of
`ns` fit an `int64_t`), the returned `M` is the product of the first
`len(s) - len(ns)` sizes of `s`, the returned `N` is the product of `ns`, and
`M * N` is the product of all sizes of `s`. -/
theorem prepare_layer_norm_inputs_M_N (H : Host) (input : Tensor)
    (normalized_shape : IntArrayRef) (weight bias X gamma beta : Tensor) (M N : Int)
    (hok : _prepare_layer_norm_inputs H input normalized_shape weight bias
      = Except.ok (X, gamma, beta, M, N))
    (haxis : input.sizes.length - normalized_shape.length < 2 ^ 31)
    (hM : -2 ^ 63 ≤ (input.sizes.take (input.sizes.length - normalized_shape.length)).prod ∧
      (input.sizes.take (input.sizes.length - normalized_shape.length)).prod < 2 ^ 63)
    (hN : -2 ^ 63 ≤ normalized_shape.prod ∧ normalized_shape.prod < 2 ^ 63) :
    M = (input.sizes.take (input.sizes.length - normalized_shape.length)).prod ∧
    N = normalized_shape.prod ∧
    M * N = input.sizes.prod := by
  have hc := (prepare_ok_iff_checks H input normalized_shape weight bias).1 ⟨_, hok⟩
  obtain ⟨hk, h1, -, -, h4, h5⟩ := prepare_checks_sound input normalized_shape weight bias hc
  rw [prepare_ok_of_checks H input normalized_shape weight bias hc] at hok
  have haxis_eq : (to_int (input.dim - to_int normalized_shape.length)).toNat
      = input.sizes.length - normalized_shape.length := by
    have hcast : (input.dim - to_int (normalized_shape.length : Int))
        = ((input.sizes.length - normalized_shape.length : Nat) : Int) := by
      rw [hk, Tensor.dim]; omega
    rw [hcast, to_int_of_small _ haxis]
    exact Int.toNat_ofNat _
  rw [haxis_eq, h5, accumulate_multiplies_one, accumulate_multiplies_one] at hok
  simp only [Except.ok.injEq, Prod.mk.injEq] at hok
  obtain ⟨-, -, -, hMeq, hNeq⟩ := hok
  have hM2 : M = (input.sizes.take (input.sizes.length - normalized_shape.length)).prod := by
    rw [← hMeq]
    exact wrap_signed_of_range 64 (by norm_num) _ hM.1 hM.2
  have hN2 : N = normalized_shape.prod := by
    rw [← hNeq]
    exact wrap_signed_of_range 64 (by norm_num) _ hN.1 hN.2
  refine ⟨hM2, hN2, ?_⟩
  have hdrop : normalized_shape.prod
      = (input.sizes.drop (input.sizes.length - normalized_shape.length)).prod := by
    rw [h5]
  rw [hM2, hN2, hdrop]
  exact List.prod_take_mul_prod_drop input.sizes _

/-- Claim C3. When both `weight_opt` and `bias_opt` hold a tensor,
`dil_layernorm` prepares its inputs and, if that succeeds with
`(X, gamma, beta, M, N)`, makes the single call
`dil_native_layer_norm_impl(X, gamma, beta, M, N, eps)` and returns the first
component of its result (if the preparation raises, the error is raised and
nothing is called). When at least one of them is absent, the only call made is
`at::native_layer_norm(input, normalized_shape, weight, bias, eps)` on the
same input, shape and `eps`, with the weight or bias that is present passed as
it is and an undefined tensor for each absent one, and the first component of
its result is returned: the fused kernel is not called. -/
theorem dil_layernorm_dispatch (K : Kernels) (H : Host) (input : Tensor)
    (normalized_shape : IntArrayRef) (weight_opt bias_opt : Option Tensor) (eps : c_float)
    (cudnn_enable : Bool) :
    (∀ weight bias X gamma beta M N, weight_opt = some weight → bias_opt = some bias →
      _prepare_layer_norm_inputs H input normalized_shape weight bias
        = Except.ok (X, gamma, beta, M, N) →
      dil_layernorm K H input normalized_shape weight_opt bias_opt eps cudnn_enable
        = ⟨[Call.dil_native_layer_norm_impl X gamma beta M N eps],
           Except.map Prod.fst (K.dil_native_layer_norm_impl X gamma beta M N eps)⟩) ∧
    (∀ weight bias msg, weight_opt = some weight → bias_opt = some bias →
      _prepare_layer_norm_inputs H input normalized_shape weight bias = Except.error msg →
      dil_layernorm K H input normalized_shape weight_opt bias_opt eps cudnn_enable
        = ⟨[], Except.error msg⟩) ∧
    (∀ weight, weight_opt = some weight → bias_opt = none →
      dil_layernorm K H input normalized_shape weight_opt bias_opt eps cudnn_enable
        = ⟨[Call.native_layer_norm input normalized_shape weight Tensor.undefined eps],
           Except.map Prod.fst
             (H.native_layer_norm input normalized_shape weight Tensor.undefined eps)⟩) ∧
    (∀ bias, weight_opt = none → bias_opt = some bias →
      dil_layernorm K H input normalized_shape weight_opt bias_opt eps cudnn_enable
        = ⟨[Call.native_layer_norm input normalized_shape Tensor.undefined bias eps],
           Except.map Prod.fst
             (H.native_layer_norm input normalized_shape Tensor.undefined bias eps)⟩) ∧
    (weight_opt = none → bias_opt = none →
      dil_layernorm K H input normalized_shape weight_opt bias_opt eps cudnn_enable
        = ⟨[Call.native_layer_norm input normalized_shape Tensor.undefined Tensor.undefined
              eps],
           Except.map Prod.fst
             (H.native_layer_norm input normalized_shape Tensor.undefined Tensor.undefined
               eps)⟩) ∧
    Tensor.undefined.defined = false := by
  refine ⟨?_, ?_, ?_, ?_, ?_, rfl⟩
  · intro weight bias X gamma beta M N hw hb hok
    subst hw hb
    simp only [dil_layernorm, hok, Outcome.lift_ok_bind, dil_native_layer_norm_impl,
      Outcome.invoke_bind_pure]
  · intro weight bias msg hw hb herr
    subst hw hb
    simp only [dil_layernorm, herr, Outcome.lift_error_bind]
  · intro weight hw hb
    subst hw hb
    simp only [dil_layernorm, native_layer_norm, borrow_from_optional_tensor,
      Outcome.invoke_bind_pure]
  · intro bias hw hb
    subst hw hb
    simp only [dil_layernorm, native_layer_norm, borrow_from_optional_tensor,
      Outcome.invoke_bind_pure]
  · intro hw hb
    subst hw hb
    simp only [dil_layernorm, native_layer_norm, borrow_from_optional_tensor,
      Outcome.invoke_bind_pure]

/-! ## Pooling and softmax -/

/-- Claim C2. If every element of `dilation` equals 1, `dil_max_pool2d` makes
the single call `pooling_impl(input, kernel_size, stride, padding, dilation,
ceil_mode, pooling_max)` and its result is the result of that call;
otherwise it raises "dil_max_pool2d does not support dilation case" and makes
no call. -/
theorem dil_max_pool2d_dispatch (K : Kernels) (input : Tensor)
    (kernel_size stride padding dilation : IntArrayRef) (ceil_mode : Bool) :
    ((∀ i ∈ dilation, i = 1) →
      dil_max_pool2d K input kernel_size stride padding dilation ceil_mode
        = ⟨[Call.pooling_impl input kernel_size stride padding dilation ceil_mode
              algorithm.pooling_max],
           K.pooling_impl input kernel_size stride padding dilation ceil_mode
              algorithm.pooling_max⟩) ∧
    (¬ (∀ i ∈ dilation, i = 1) →
      dil_max_pool2d K input kernel_size stride padding dilation ceil_mode
        = ⟨[], Except.error "dil_max_pool2d does not support dilation case"⟩) := by
  constructor
  · intro h
    have hall : dilation.all (fun i => decide (1 = i)) = true := by
      simp only [List.all_eq_true, decide_eq_true_eq]
      intro i hi
      exact (h i hi).symm
    simp only [dil_max_pool2d, hall, TORCH_CHECK, if_true, Outcome.lift_ok_bind, pooling_impl,
      Outcome.invoke]
  · intro h
    have hall : dilation.all (fun i => decide (1 = i)) = false := by
      rw [← Bool.not_eq_true]
      intro hc
      simp only [List.all_eq_true, decide_eq_true_eq] at hc
      exact h (fun i hi => (hc i hi).symm)
    simp only [dil_max_pool2d, hall, TORCH_CHECK, Bool.false_eq_true, if_false,
      Outcome.lift_error_bind]

/-- Claim C4. Each convolution operator makes one kernel call with the
unchanged `(input, weight, bias, stride, padding, dilation, groups)` and its
own fusion attribute. The operators `dil_convolution_base`, `_swish`,
`_sigmoid`, `_clamp`, `_relu` and `_elu` call `convolution_impl` with,
in that order, the default attribute, `fuse_swish`, `fuse_sigmoid`,
`fuse_clamp(lower_bound, upper_bound)`, `fuse_relu` and
`fuse_elu(scale, alpha, input_scale)`, and return its result; the operators
`dil_convolution_sum` and `dil_convolution_sum_relu` call
`convolution_inplace_impl` with `accumu` added and the attribute
`fuse_sum(alpha)`, respectively `residual(alpha)`, and return `accumu` as the
kernel left it. A `Scalar` argument enters its attribute converted to `float`. -/
theorem dil_convolution_dispatch (K : Kernels) (H : Host) (input weight bias : Tensor)
    (stride padding dilation : IntArrayRef) (groups : Int) :
    dil_convolution_base K input weight bias stride padding dilation groups
      = ⟨[Call.convolution_impl input weight bias stride padding dilation groups
            attr_t.default_ctor],
         K.convolution_impl input weight bias stride padding dilation groups
            attr_t.default_ctor⟩ ∧
    dil_convolution_swish K input weight bias stride padding dilation groups
      = ⟨[Call.convolution_impl input weight bias stride padding dilation groups
            attr_t.fuse_swish],
         K.convolution_impl input weight bias stride padding dilation groups
            attr_t.fuse_swish⟩ ∧
    dil_convolution_sigmoid K input weight bias stride padding dilation groups
      = ⟨[Call.convolution_impl input weight bias stride padding dilation groups
            attr_t.fuse_sigmoid],
         K.convolution_impl input weight bias stride padding dilation groups
            attr_t.fuse_sigmoid⟩ ∧
    (∀ lower_bound upper_bound,
      dil_convolution_clamp K input weight bias stride padding dilation groups
          lower_bound upper_bound
        = ⟨[Call.convolution_impl input weight bias stride padding dilation groups
              (attr_t.fuse_clamp lower_bound upper_bound)],
           K.convolution_impl input weight bias stride padding dilation groups
              (attr_t.fuse_clamp lower_bound upper_bound)⟩) ∧
    dil_convolution_relu K input weight bias stride padding dilation groups
      = ⟨[Call.convolution_impl input weight bias stride padding dilation groups
            attr_t.fuse_relu],
         K.convolution_impl input weight bias stride padding dilation groups
            attr_t.fuse_relu⟩ ∧
    (∀ alpha scale input_scale scale_value input_scale_value,
      H.to_float scale = Except.ok scale_value →
      H.to_float input_scale = Except.ok input_scale_value →
      dil_convolution_elu K H input weight bias stride padding dilation groups
          alpha scale input_scale
        = ⟨[Call.convolution_impl input weight bias stride padding dilation groups
              (attr_t.fuse_elu scale_value alpha input_scale_value)],
           K.convolution_impl input weight bias stride padding dilation groups
              (attr_t.fuse_elu scale_value alpha input_scale_value)⟩) ∧
    (∀ accumu alpha scale, H.to_float alpha = Except.ok scale →
      dil_convolution_sum K H input weight bias stride padding dilation groups accumu alpha
        = ⟨[Call.convolution_inplace_impl input weight bias accumu stride padding dilation
              groups (attr_t.fuse_sum scale)],
           K.convolution_inplace_impl input weight bias accumu stride padding dilation
              groups (attr_t.fuse_sum scale)⟩) ∧
    (∀ accumu alpha scale, H.to_float alpha = Except.ok scale →
      dil_convolution_sum_relu K H input weight bias stride padding dilation groups accumu
          alpha
        = ⟨[Call.convolution_inplace_impl input weight bias accumu stride padding dilation
              groups (attr_t.residual scale)],
           K.convolution_inplace_impl input weight bias accumu stride padding dilation
              groups (attr_t.residual scale)⟩) := by
  refine ⟨rfl, rfl, rfl, fun _ _ => rfl, rfl, ?_, ?_, ?_⟩
  · intro alpha scale input_scale scale_value input_scale_value h1 h2
    simp only [dil_convolution_elu, h1, h2, Outcome.lift_ok_bind, convolution_impl,
      Outcome.invoke]
  · intro accumu alpha scale h
    simp only [dil_convolution_sum, h, Outcome.lift_ok_bind, convolution_inplace_impl,
      Outcome.invoke_bind_return]
  · intro accumu alpha scale h
    simp only [dil_convolution_sum_relu, h, Outcome.lift_ok_bind, convolution_inplace_impl,
      Outcome.invoke_bind_return]

/-- Claim C7. When `alpha` converts to the `float` `scale`, `dil_linear_add`
makes the single call `linear_inplace_impl(self, weight, bias, accumu,
fuse_sum(scale))` and returns its result: `alpha` enters only as the scale of
the sum post-op, and `accumu` only as the accumulation operand. With the
kernel modelled after the pattern of the fusion, the operator returns `accumu`
with every element multiplied by `alpha` and added to the element of
`Linear(self, weight, bias)`, that is `accum * alpha + Linear(self, weight,
bias)`: `alpha` scales `accumu` and not the output of the linear layer. -/
theorem dil_linear_add_dispatch (K : Kernels) (H : Host) (self weight bias accumu : Tensor)
    (alpha : Scalar) (scale : c_float) (hscale : H.to_float alpha = Except.ok scale) :
    dil_linear_add K H self weight bias accumu alpha
      = ⟨[Call.linear_inplace_impl self weight bias accumu (attr_t.fuse_sum scale)],
         K.linear_inplace_impl self weight bias accumu (attr_t.fuse_sum scale)⟩ ∧
    ∀ value : c_float → Int,
      (dil_linear_add { K with linear_inplace_impl := modelled_linear_inplace_impl value } H
          self weight bias accumu alpha).result
        = Except.ok
            { defined := accumu.defined, sizes := accumu.sizes,
              scalar_type := accumu.scalar_type, is_contiguous := accumu.is_contiguous,
              storage := List.zipWith (fun a y => a * value scale + y) accumu.storage
                (modelled_Linear self weight bias).storage } := by
  have h : ∀ K : Kernels, dil_linear_add K H self weight bias accumu alpha
      = ⟨[Call.linear_inplace_impl self weight bias accumu (attr_t.fuse_sum scale)],
         K.linear_inplace_impl self weight bias accumu (attr_t.fuse_sum scale)⟩ := by
    intro K
    simp only [dil_linear_add, hscale, Outcome.lift_ok_bind, linear_inplace_impl,
      Outcome.invoke]
  refine ⟨h K, ?_⟩
  intro value
  rw [h]
  rfl

/-! ## Matmul followed by div -/

theorem dil_matmul_div_defined (H : Host) (memory memory2 : Memory)
    (tensor1 tensor2 out : Handle) (div_input : TensorRef)
    (hd : (memory.read out).defined = true)
    (hm : H.matmul_out memory out tensor1 tensor2 = Except.ok memory2) :
    dil_matmul_div H memory tensor1 tensor2 out div_input
      = ⟨[Call.matmul_out (memory.read out) (memory.read tensor1) (memory.read tensor2),
          Call.div (memory2.read out) (div_input.read memory2)],
         Except.map (fun r => (r, memory2))
           (H.div (memory2.read out) (div_input.read memory2))⟩ := by
  unfold dil_matmul_div
  simp only [hd, if_true, matmul_out, div]
  show Outcome.bind _ _ = _
  simp only [Outcome.bind, Outcome.invoke, hm]
  have := Outcome.invoke_bind_pure (Call.div (memory2.read out) (div_input.read memory2))
    (H.div (memory2.read out) (div_input.read memory2)) (fun r => (r, memory2))
  simp only [Outcome.invoke] at this
  rw [this]
  rfl

theorem dil_matmul_div_undefined (H : Host) (memory : Memory)
    (tensor1 tensor2 out : Handle) (div_input : TensorRef) (output : Tensor)
    (hd : (memory.read out).defined = false)
    (hm : H.matmul (memory.read tensor1) (memory.read tensor2) = Except.ok output) :
    dil_matmul_div H memory tensor1 tensor2 out div_input
      = ⟨[Call.matmul (memory.read tensor1) (memory.read tensor2),
          Call.div output (div_input.read memory)],
         Except.map (fun r => (r, memory)) (H.div output (div_input.read memory))⟩ := by
  unfold dil_matmul_div
  simp only [hd, Bool.false_eq_true, if_false, matmul, div]
  show Outcome.bind _ _ = _
  simp only [Outcome.bind, Outcome.invoke, hm]
  have := Outcome.invoke_bind_pure (Call.div output (div_input.read memory))
    (H.div output (div_input.read memory)) (fun r => (r, memory))
  simp only [Outcome.invoke] at this
  rw [this]
  rfl

theorem dil_matmul_div_scalar_same_rank (K : Kernels) (H : Host) (memory : Memory)
    (tensor1 tensor2 out : Handle) (div_input : Scalar) (x : c_float)
    (hrank : (memory.read tensor1).sizes.length = (memory.read tensor2).sizes.length)
    (h3 : 3 ≤ (memory.read tensor1).sizes.length)
    (hx : H.to_float div_input = Except.ok x) :
    dil_matmul_div_scalar K H memory tensor1 tensor2 out div_input
      = ⟨[Call.bmm_impl (memory.read tensor1) (memory.read tensor2) (memory.read out)
            attr_t.default_ctor (H.reciprocal x)],
         K.bmm_impl memory tensor1 tensor2 out attr_t.default_ctor (H.reciprocal x)⟩ := by
  have hc : (memory.read tensor1).dim = (memory.read tensor2).dim ∧
      (memory.read tensor1).dim ≥ 3 := by
    simp only [Tensor.dim]; omega
  unfold dil_matmul_div_scalar
  simp only []
  rw [if_pos hc]
  simp only [hx, Outcome.lift_ok_bind, bmm_impl, Outcome.invoke]

theorem dil_matmul_div_scalar_other_rank (K : Kernels) (H : Host) (memory : Memory)
    (tensor1 tensor2 out : Handle) (div_input : Scalar)
    (h : ¬ ((memory.read tensor1).sizes.length = (memory.read tensor2).sizes.length ∧
      3 ≤ (memory.read tensor1).sizes.length)) :
    dil_matmul_div_scalar K H memory tensor1 tensor2 out div_input
      = dil_matmul_div H memory tensor1 tensor2 out
          (TensorRef.temporary (H.wrapped_scalar_tensor div_input)) := by
  have hc : ¬ ((memory.read tensor1).dim = (memory.read tensor2).dim ∧
      (memory.read tensor1).dim ≥ 3) := by
    simp only [Tensor.dim]; omega
  unfold dil_matmul_div_scalar
  simp only []
  rw [if_neg hc]

/-! ## The theorems on concrete inputs -/

theorem prepare_layer_norm_inputs_weight_mismatch_raises_witness :
    sample_weight_mismatched.defined = true ∧ sample_weight_mismatched.sizes ≠ [3, 4] ∧
    ∃ msg, _prepare_layer_norm_inputs sample_host sample_input [3, 4]
        sample_weight_mismatched sample_bias = Except.error msg ∧
      dil_layernorm sample_kernels sample_host sample_input [3, 4]
        (some sample_weight_mismatched) (some sample_bias) sample_eps false
        = ⟨[], Except.error msg⟩ :=
  ⟨rfl, by decide,
    prepare_layer_norm_inputs_weight_mismatch_raises sample_kernels sample_host sample_input
      [3, 4] sample_weight_mismatched sample_bias sample_eps false rfl (by decide)⟩

theorem prepare_layer_norm_inputs_returns_iff_witness :
    ([3, 4] : IntArrayRef).length < 2 ^ 31 ∧
    (∃ t, _prepare_layer_norm_inputs sample_host sample_input [3, 4] sample_weight sample_bias
      = Except.ok t) ∧
    (1 ≤ ([3, 4] : IntArrayRef).length ∧
     (sample_weight.defined = false ∨ sample_weight.sizes = [3, 4]) ∧
     (sample_bias.defined = false ∨ sample_bias.sizes = [3, 4]) ∧
     ([3, 4] : IntArrayRef).length ≤ sample_input.sizes.length ∧
     sample_input.sizes.drop (sample_input.sizes.length - ([3, 4] : IntArrayRef).length)
       = [3, 4]) :=
  ⟨by decide,
    ((prepare_layer_norm_inputs_returns_iff sample_host sample_input [3, 4] sample_weight
        sample_bias).2 (by decide)).2
      ⟨by decide, Or.inr rfl, Or.inr rfl, by decide, by decide⟩,
    (prepare_layer_norm_inputs_returns_iff sample_host sample_input [3, 4] sample_weight
        sample_bias).1 ⟨(sample_input, sample_weight, sample_bias, 2, 12), rfl⟩⟩

theorem prepare_layer_norm_inputs_M_N_witness :
    _prepare_layer_norm_inputs sample_host sample_input [3, 4] sample_weight sample_bias
      = Except.ok (sample_input, sample_weight, sample_bias, 2, 12) ∧
    ((2 : Int) = (sample_input.sizes.take (sample_input.sizes.length
        - ([3, 4] : IntArrayRef).length)).prod ∧
      (12 : Int) = ([3, 4] : IntArrayRef).prod ∧
      (2 : Int) * 12 = sample_input.sizes.prod) :=
  ⟨rfl,
    prepare_layer_norm_inputs_M_N sample_host sample_input [3, 4] sample_weight sample_bias
      sample_input sample_weight sample_bias 2 12 rfl (by decide) (by decide) (by decide)⟩

theorem dil_layernorm_dispatch_witness :
    dil_layernorm sample_kernels sample_host sample_input [3, 4] (some sample_weight)
        (some sample_bias) sample_eps false
      = ⟨[Call.dil_native_layer_norm_impl sample_input sample_weight sample_bias 2 12
            sample_eps],
         Except.map Prod.fst (sample_kernels.dil_native_layer_norm_impl sample_input
            sample_weight sample_bias 2 12 sample_eps)⟩ ∧
    dil_layernorm sample_kernels sample_host sample_input [3, 4] (some sample_weight) none
        sample_eps false
      = ⟨[Call.native_layer_norm sample_input [3, 4] sample_weight Tensor.undefined
            sample_eps],
         Except.map Prod.fst (sample_host.native_layer_norm sample_input [3, 4]
            sample_weight Tensor.undefined sample_eps)⟩ ∧
    dil_layernorm sample_kernels sample_host sample_input [3, 4] none (some sample_bias)
        sample_eps false
      = ⟨[Call.native_layer_norm sample_input [3, 4] Tensor.undefined sample_bias
            sample_eps],
         Except.map Prod.fst (sample_host.native_layer_norm sample_input [3, 4]
            Tensor.undefined sample_bias sample_eps)⟩ ∧
    dil_layernorm sample_kernels sample_host sample_input [3, 4] none none sample_eps false
      = ⟨[Call.native_layer_norm sample_input [3, 4] Tensor.undefined Tensor.undefined
            sample_eps],
         Except.map Prod.fst (sample_host.native_layer_norm sample_input [3, 4]
            Tensor.undefined Tensor.undefined sample_eps)⟩ :=
  ⟨(dil_layernorm_dispatch sample_kernels sample_host sample_input [3, 4] (some sample_weight)
      (some sample_bias) sample_eps false).1 sample_weight sample_bias sample_input
      sample_weight sample_bias 2 12 rfl rfl rfl,
   (dil_layernorm_dispatch sample_kernels sample_host sample_input [3, 4] (some sample_weight)
      none sample_eps false).2.2.1 sample_weight rfl rfl,
   (dil_layernorm_dispatch sample_kernels sample_host sample_input [3, 4] none
      (some sample_bias) sample_eps false).2.2.2.1 sample_bias rfl rfl,
   (dil_layernorm_dispatch sample_kernels sample_host sample_input [3, 4] none none
      sample_eps false).2.2.2.2.1 rfl rfl⟩

theorem dil_max_pool2d_dispatch_witness :
    dil_max_pool2d sample_kernels sample_input [2, 2] [2, 2] [0, 0] [1, 1] false
      = ⟨[Call.pooling_impl sample_input [2, 2] [2, 2] [0, 0] [1, 1] false
            algorithm.pooling_max],
         sample_kernels.pooling_impl sample_input [2, 2] [2, 2] [0, 0] [1, 1] false
            algorithm.pooling_max⟩ ∧
    dil_max_pool2d sample_kernels sample_input [2, 2] [2, 2] [0, 0] [1, 2] false
      = ⟨[], Except.error "dil_max_pool2d does not support dilation case"⟩ :=
  ⟨(dil_max_pool2d_dispatch sample_kernels sample_input [2, 2] [2, 2] [0, 0] [1, 1] false).1
      (by decide),
   (dil_max_pool2d_dispatch sample_kernels sample_input [2, 2] [2, 2] [0, 0] [1, 2] false).2
      (by decide)⟩

theorem dil_convolution_dispatch_witness :
    sample_host.to_float (Scalar.of_int64 2) = Except.ok ⟨0x40000000⟩ ∧
    dil_convolution_sum sample_kernels sample_host sample_input sample_weight sample_bias
        [1, 1] [0, 0] [1, 1] 1 sample_out (Scalar.of_int64 2)
      = ⟨[Call.convolution_inplace_impl sample_input sample_weight sample_bias sample_out
            [1, 1] [0, 0] [1, 1] 1 (attr_t.fuse_sum ⟨0x40000000⟩)],
         sample_kernels.convolution_inplace_impl sample_input sample_weight sample_bias
            sample_out [1, 1] [0, 0] [1, 1] 1 (attr_t.fuse_sum ⟨0x40000000⟩)⟩ ∧
    dil_convolution_elu sample_kernels sample_host sample_input sample_weight sample_bias
        [1, 1] [0, 0] [1, 1] 1 ⟨0x3F800000⟩ (Scalar.of_int64 2) (Scalar.of_int64 1)
      = ⟨[Call.convolution_impl sample_input sample_weight sample_bias
            [1, 1] [0, 0] [1, 1] 1 (attr_t.fuse_elu ⟨0x40000000⟩ ⟨0x3F800000⟩ ⟨0x3F800000⟩)],
         sample_kernels.convolution_impl sample_input sample_weight sample_bias
            [1, 1] [0, 0] [1, 1] 1
            (attr_t.fuse_elu ⟨0x40000000⟩ ⟨0x3F800000⟩ ⟨0x3F800000⟩)⟩ :=
  ⟨rfl,
   (dil_convolution_dispatch sample_kernels sample_host sample_input sample_weight sample_bias
      [1, 1] [0, 0] [1, 1] 1).2.2.2.2.2.2.1 sample_out (Scalar.of_int64 2) ⟨0x40000000⟩ rfl,
   (dil_convolution_dispatch sample_kernels sample_host sample_input sample_weight sample_bias
      [1, 1] [0, 0] [1, 1] 1).2.2.2.2.2.1 ⟨0x3F800000⟩ (Scalar.of_int64 2) (Scalar.of_int64 1)
      ⟨0x40000000⟩ ⟨0x3F800000⟩ rfl rfl⟩

theorem dil_linear_add_dispatch_witness :
    sample_host.to_float (Scalar.of_int64 2) = Except.ok ⟨0x40000000⟩ ∧
    dil_linear_add sample_kernels sample_host sample_mat_a sample_mat_b sample_bias_2
        sample_accumu (Scalar.of_int64 2)
      = ⟨[Call.linear_inplace_impl sample_mat_a sample_mat_b sample_bias_2 sample_accumu
            (attr_t.fuse_sum ⟨0x40000000⟩)],
         sample_kernels.linear_inplace_impl sample_mat_a sample_mat_b sample_bias_2
            sample_accumu (attr_t.fuse_sum ⟨0x40000000⟩)⟩ ∧
    (dil_linear_add sample_kernels sample_host sample_mat_a sample_mat_b sample_bias_2
        sample_accumu (Scalar.of_int64 2)).result
      = Except.ok (sample_tensor [2, 2] [1 * 2 + 12, 1 * 2 + 28, 1 * 2 + 16, 1 * 2 + 36]) :=
  ⟨rfl,
   (dil_linear_add_dispatch sample_kernels sample_host sample_mat_a sample_mat_b sample_bias_2
      sample_accumu (Scalar.of_int64 2) ⟨0x40000000⟩ rfl).1,
   (dil_linear_add_dispatch sample_kernels sample_host sample_mat_a sample_mat_b sample_bias_2
      sample_accumu (Scalar.of_int64 2) ⟨0x40000000⟩ rfl).2 sample_value⟩

/-- A divisor that is the same object as `out` is read after the write: the
product is divided by itself. A divisor that is another object with the same
contents is not touched by the write. -/
theorem dil_matmul_div_aliased_divisor :
    dil_matmul_div sample_host sample_memory_aliased 0 1 2 (TensorRef.object 2)
      = ⟨[Call.matmul_out sample_twos sample_mat_a sample_mat_b,
          Call.div sample_product sample_product],
         Except.ok (sample_ones, ⟨[sample_mat_a, sample_mat_b, sample_product]⟩)⟩ ∧
    dil_matmul_div sample_host sample_memory_aliased 0 1 2 (TensorRef.temporary sample_twos)
      = ⟨[Call.matmul_out sample_twos sample_mat_a sample_mat_b,
          Call.div sample_product sample_twos],
         Except.ok (sample_quotient, ⟨[sample_mat_a, sample_mat_b, sample_product]⟩)⟩ :=
  ⟨rfl, rfl⟩

end cpu
end torch_ipex
